import Mathlib

/-!
Verification of the feathers-sequelize record-service adapter (`src/index.js`).

The adapter orchestrates CRUD calls over an external Sequelize storage engine.
We embed it shallowly:

* A `Record` is an association list from field names to `Value`s; JS
  `undefined` is the explicit value `Value.vundef` (a missing key reads as
  `vundef`, matching JS property access).
* The storage engine is external to the repository; its call surface
  (`findAndCount`, `findById`, `update(data, {where})`, `destroy({where})`,
  `instance.update`) is modelled from the spec as pure functions over a
  state `St` holding the record list and a trace of engine calls.  The trace
  lets theorems speak about which engine calls an operation issues and in
  what order.
* The repository's `src/utils.js` (`getWhere`, `getOrder`, `errorHandler`)
  and the external packages `feathers-query-filters` (`filter`),
  `feathers-commons` (`select`) and `lodash.omit` are not under `src/`;
  they are modelled from the spec where noted.
* JS truthiness quotients: a pagination `default` of `0` behaves exactly
  like an absent one everywhere in the code, so `none` models both; the
  same holds for a falsy `options.id`.
-/

namespace FeathersSequelize

/-- A JS value as stored in a record field.  `vundef` is JS `undefined`,
`vnull` is JS `null`. -/
inductive Value where
  | vundef : Value
  | vnull : Value
  | vint : Int → Value
  | vstr : String → Value
  | vbool : Bool → Value
deriving DecidableEq, Repr

/-- A record: an association list from field name to value, produced and
owned by the storage engine. -/
abbrev Record := List (String × Value)

/-- The storage engine's table: an ordered list of records. -/
abbrev DB := List Record

/-- Look a field up in a record (first occurrence), `none` when absent. -/
def getField (r : Record) (k : String) : Option Value :=
  (r.find? (fun p => p.1 == k)).map (fun p => p.2)

/-- JS property access: a missing field reads as `undefined`. -/
def getFieldV (r : Record) (k : String) : Value :=
  (getField r k).getD Value.vundef

/-- JS property assignment on an object: overwrite an existing key in
place, otherwise append the key. -/
def setField (r : Record) (k : String) (v : Value) : Record :=
  if r.any (fun p => p.1 == k) then
    r.map (fun p => if p.1 = k then (k, v) else p)
  else
    r ++ [(k, v)]

/-- Apply a data payload to a record, setting each listed field in order
(the storage engine's row-update semantics). -/
def applyData (r : Record) (ds : List (String × Value)) : Record :=
  ds.foldl (fun acc p => setField acc p.1 p.2) r

/-- A per-field comparison in a where clause: plain equality or `$in`
set membership (the operators the claims exercise). -/
inductive Cond where
  | eq : Value → Cond
  | isIn : List Value → Cond
deriving DecidableEq, Repr

/-- A where clause: a conjunction of per-field conditions. -/
abbrev Where := List (String × Cond)

/-- Modelled from the spec: the storage engine's evaluation of one
condition against a record — `$in` is set membership, a bare value is
equality; `$in` with an empty list matches nothing. -/
def matchCond (r : Record) (k : String) : Cond → Bool
  | Cond.eq v => getFieldV r k == v
  | Cond.isIn vs => vs.contains (getFieldV r k)

/-- A record matches a where clause when it satisfies every condition
(top-level is an implicit AND across fields). -/
def matchWhere (r : Record) (w : Where) : Bool :=
  w.all (fun p => matchCond r p.1 p.2)

/-- JS key assignment on a where object (`where[this.id] = id`):
overwrite an existing key, otherwise append. -/
def assocSet (w : Where) (k : String) (c : Cond) : Where :=
  if w.any (fun p => p.1 == k) then
    w.map (fun p => if p.1 = k then (k, c) else p)
  else
    w ++ [(k, c)]

/-- Labels for the engine calls the service issues, recorded in order. -/
inductive Call where
  | findAndCount : Call
  | findById : Call
  | updateMany : Call
  | destroy : Call
  | instanceUpdate : Call
deriving DecidableEq, Repr

/-- The engine-side state: the table plus the trace of engine calls made
so far. -/
structure St where
  db : DB
  calls : List Call
deriving DecidableEq, Repr

/-- Apply an optional row limit. -/
def takeOpt : Option Nat → List Record → List Record
  | none, l => l
  | some n, l => l.take n

/-- Engine-side `attributes` projection: keep exactly the listed fields. -/
def projAttrs : Option (List String) → Record → Record
  | none, r => r
  | some fs, r => r.filter (fun p => fs.contains p.1)

/-- Modelled from the spec: engine `findAndCount(q) -> {count, rows}` —
`count` is the number of matching rows ignoring limit/skip, `rows` the
matching rows after skip/limit and attribute projection. -/
def Model.findAndCount (st : St) (w : Where) (limit : Option Nat)
    (skip : Nat) (attrs : Option (List String)) : St × Nat × List Record :=
  let matched := st.db.filter (fun r => matchWhere r w)
  ({ db := st.db, calls := st.calls ++ [Call.findAndCount] },
   matched.length, (takeOpt limit (matched.drop skip)).map (projAttrs attrs))

/-- Modelled from the spec: engine `findById(id) -> Record | null` —
the first record whose identifier field equals the given id. -/
def Model.findById (st : St) (idField : String) (i : Value) : St × Option Record :=
  ({ db := st.db, calls := st.calls ++ [Call.findById] },
   st.db.find? (fun r => getFieldV r idField == i))

/-- Modelled from the spec: engine `update(data, {where}) -> affectedCount` —
applies the payload to every record matching the where clause. -/
def Model.update (st : St) (ds : List (String × Value)) (w : Where) : St :=
  { db := st.db.map (fun r => if matchWhere r w then applyData r ds else r),
    calls := st.calls ++ [Call.updateMany] }

/-- Modelled from the spec: engine `destroy({where}) -> affectedCount` —
removes every record matching the where clause. -/
def Model.destroy (st : St) (w : Where) : St :=
  { db := st.db.filter (fun r => !matchWhere r w),
    calls := st.calls ++ [Call.destroy] }

/-- Modelled from the spec: engine `instance.update(data) -> Record` —
applies the payload to the row with the instance's identifier and returns
the updated instance. -/
def Model.instanceUpdate (st : St) (idField : String) (rec : Record)
    (ds : List (String × Value)) : St × Record :=
  ({ db := st.db.map (fun r =>
        if getFieldV r idField == getFieldV rec idField then applyData r ds else r),
     calls := st.calls ++ [Call.instanceUpdate] },
   applyData rec ds)

/-- Service pagination configuration.  `none` models a JS-falsy (absent or
zero) `default`. -/
structure Pagination where
  default : Option Nat := none
  max : Option Nat := none
deriving DecidableEq, Repr

/-- A caller query: the reserved directives plus the field predicates.
`preds` is what `filter(query).query` leaves after the directives are
split off. -/
structure Query where
  limit : Option Nat := none
  skip : Option Nat := none
  sel : Option (List String) := none
  preds : Where := []
deriving DecidableEq, Repr

/-- The normalized directives produced by the filter parser. -/
structure Filters where
  limit : Option Nat
  skip : Nat
  sel : Option (List String)
deriving DecidableEq, Repr

/-- Modelled from the spec: `feathers-query-filters` — with pagination
disabled the caller's `$limit` passes through verbatim; with a default,
a missing `$limit` becomes the default and any request is clamped to
`max`; `$skip` defaults to 0. -/
def parseFilters (pag : Pagination) (q : Query) : Filters :=
  { limit :=
      match pag.default with
      | none => q.limit
      | some d =>
        match pag.max with
        | none => some (q.limit.getD d)
        | some m => some (min (q.limit.getD d) m)
    skip := q.skip.getD 0
    sel := q.sel }

/-- Modelled from the spec: `src/utils.js` `getWhere` is not under `src/`;
per spec §4.1–§4.2 it hands the parsed field predicates to the engine as
the native where clause. -/
def getWhere (q : Query) : Where := q.preds

/-- Call parameters: the query, and an optional per-call pagination
override (`params.paginate`). -/
structure Params where
  query : Query := {}
  paginate : Option Pagination := none
deriving DecidableEq, Repr

/-- The service's construction-time options after validation. -/
structure Opts where
  id : String := "id"
  paginate : Pagination := {}
deriving DecidableEq, Repr

/-- The raw options object handed to the constructor. -/
structure RawOptions where
  Model : Option Unit := none
  id : Option String := none
  paginate : Option Pagination := none
deriving DecidableEq, Repr

/-- The error taxonomy of the spec (§7). -/
inductive Err where
  | configuration : Err
  | notFound : Err
  | invalidOperation : Err
deriving DecidableEq, Repr

/-- The constructor: throws when no options or no Model are given,
otherwise records the id field (default `"id"`) and pagination. -/
def Service.construct : Option RawOptions → Except Err Opts
  | none => Except.error Err.configuration
  | some o =>
    match o.Model with
    | none => Except.error Err.configuration
    | some _ => Except.ok { id := o.id.getD "id", paginate := o.paginate.getD {} }

/-- A page of results. -/
structure Page where
  total : Nat
  limit : Option Nat
  skip : Nat
  data : List Record
deriving DecidableEq, Repr

/-- What `find` hands back: a page, or the bare record list. -/
inductive FindResult where
  | page : Page → FindResult
  | records : List Record → FindResult
deriving DecidableEq, Repr

/-- Modelled from the spec: `feathers-commons` `select(params, idField)` —
keep the `$select`ed fields plus the identifier field; absent `$select`
returns the record unchanged. -/
def selectFields (idField : String) (sel : Option (List String)) (r : Record) : Record :=
  match sel with
  | none => r
  | some fs => r.filter (fun p => fs.contains p.1 || p.1 == idField)

/-- A single- or multi-record result, as patch/remove return either. -/
inductive Res where
  | one : Record → Res
  | many : List Record → Res
deriving DecidableEq, Repr

/-- Map a record transformation over a result (how `select` acts on a
single record or on each of a list). -/
def Res.mapRecords (f : Record → Record) : Res → Res
  | Res.one r => Res.one (f r)
  | Res.many rs => Res.many (rs.map f)

/-- `Service._find`: parse the filters, issue `findAndCount`, wrap the
outcome in a page. -/
def Service._find (pag : Pagination) (p : Params) (st : St) : St × Page :=
  let f := parseFilters pag p.query
  let res := Model.findAndCount st (getWhere p.query) f.limit f.skip f.sel
  (res.1, { total := res.2.1, limit := f.limit, skip := f.skip, data := res.2.2 })

/-- `Service.find`: use the per-call paginate override when supplied,
otherwise the construction-time pagination; without a truthy `default`
return the bare data list instead of the page. -/
def Service.find (s : Opts) (p : Params) (st : St) : St × FindResult :=
  let pag := p.paginate.getD s.paginate
  let fp := Service._find pag p st
  match pag.default with
  | none => (fp.1, FindResult.records fp.2.data)
  | some _ => (fp.1, FindResult.page fp.2)

/-- `Service._get`: `findById`, `NotFound` when absent, then the `$select`
projection. -/
def Service._get (s : Opts) (i : Value) (p : Params) (st : St) : St × Except Err Record :=
  let fr := Model.findById st s.id i
  (fr.1,
   match fr.2 with
   | none => Except.error Err.notFound
   | some rec => Except.ok (selectFields s.id p.query.sel rec))

/-- `Service.get`: `_get` followed by the `$select` projection once more,
as in the source. -/
def Service.get (s : Opts) (i : Value) (p : Params) (st : St) : St × Except Err Record :=
  let g := Service._get s i p st
  (g.1, g.2.map (selectFields s.id p.query.sel))

/-- `Service._getOrFind`: all unpaginated items for the params when the id
is null, otherwise the single record for the id. -/
def Service._getOrFind (s : Opts) (oid : Option Value) (p : Params) (st : St) :
    St × Except Err Res :=
  match oid with
  | none =>
    let fp := Service._find {} p st
    (fp.1, Except.ok (Res.many fp.2.data))
  | some i =>
    let g := Service._get s i p st
    (g.1, g.2.map Res.one)

/-- `omit(data, this.id)`: drop the identifier field from a payload. -/
def stripId (idField : String) (ds : List (String × Value)) : List (String × Value) :=
  ds.filter (fun p => p.1 != idField)

/-- The id-or-filter where clause patch and remove both build: the parsed
field predicates, additionally keyed to `id == given id` when the id is
not null. -/
def buildWhere (s : Opts) (oid : Option Value) (q : Query) : Where :=
  match oid with
  | none => getWhere q
  | some i => assocSet (getWhere q) s.id (Cond.eq i)

/-- `Service.patch`: resolve the snapshot identifier list (the given id,
or — for a null id — the ids of the records the filter currently
matches), strip the identifier from the payload, issue the engine update
against the id-or-filter where clause, then re-fetch by the snapshot id
list and apply the `$select` projection. -/
def Service.patch (s : Opts) (oid : Option Value) (data : List (String × Value))
    (p : Params) (st : St) : St × Except Err Res :=
  let resolved : St × List Value :=
    match oid with
    | none =>
      let fp := Service._find {} p st
      (fp.1, fp.2.data.map (fun r => getFieldV r s.id))
    | some i => (st, [i])
  let st2 := Model.update resolved.1 (stripId s.id data) (buildWhere s oid p.query)
  let findParams : Params := { p with query := { preds := [(s.id, Cond.isIn resolved.2)] } }
  let gf := Service._getOrFind s oid findParams st2
  (gf.1, gf.2.map (Res.mapRecords (selectFields s.id p.query.sel)))

/-- An update payload: a single object, or an array (which update
rejects). -/
inductive UpdateData where
  | obj : List (String × Value) → UpdateData
  | arr : List (List (String × Value)) → UpdateData
deriving DecidableEq, Repr

/-- The value the replacement payload assigns to one existing field: the
caller's value when defined, explicit null otherwise
(`typeof data[key] === 'undefined'`). -/
def updValue (ds : List (String × Value)) (k : String) : Value :=
  match getField ds k with
  | some Value.vundef => Value.vnull
  | some v => v
  | none => Value.vnull

/-- The replacement payload update computes: every field currently on the
record, set to the caller's value when provided and to null otherwise. -/
def replacement (rec : Record) (ds : List (String × Value)) : List (String × Value) :=
  rec.map (fun p => (p.1, updValue ds p.1))

/-- `Service.update`: reject an array payload outright; otherwise fetch
the record by id (`NotFound` when absent), build the replacement payload
and issue the instance update, then project. -/
def Service.update (s : Opts) (i : Value) (data : UpdateData) (p : Params)
    (st : St) : St × Except Err Record :=
  match data with
  | UpdateData.arr _ => (st, Except.error Err.invalidOperation)
  | UpdateData.obj d =>
    let fr := Model.findById st s.id i
    match fr.2 with
    | none => (fr.1, Except.error Err.notFound)
    | some rec =>
      let iu := Model.instanceUpdate fr.1 s.id rec (replacement rec d)
      (iu.1, Except.ok (selectFields s.id p.query.sel iu.2))

/-- `Service.remove`: resolve the target record(s) first via `_getOrFind`,
build the id-or-filter where clause, issue the delete, and return the
previously resolved record(s) through the projection. -/
def Service.remove (s : Opts) (oid : Option Value) (p : Params) (st : St) :
    St × Except Err Res :=
  let gf := Service._getOrFind s oid p st
  match gf.2 with
  | Except.error e => (gf.1, Except.error e)
  | Except.ok snap =>
    (Model.destroy gf.1 (buildWhere s oid p.query),
     Except.ok (snap.mapRecords (selectFields s.id p.query.sel)))

/-! ### Association-list lemmas -/

theorem getField_nil (k : String) : getField [] k = none := rfl

theorem getField_cons (x : String × Value) (t : Record) (k : String) :
    getField (x :: t) k = if x.1 = k then some x.2 else getField t k := by
  by_cases h : x.1 = k
  · simp [getField, List.find?_cons_of_pos, h]
  · simp [getField, List.find?_cons_of_neg, h]

theorem getField_append (r r' : Record) (k : String) :
    getField (r ++ r') k =
      match getField r k with
      | some v => some v
      | none => getField r' k := by
  induction r with
  | nil => simp [getField_nil]
  | cons a t ih => by_cases h : a.1 = k <;> simp [getField_cons, h, ih]

theorem any_key_iff (r : Record) (k : String) :
    (r.any (fun p => p.1 == k)) = true ↔ ∃ v, getField r k = some v := by
  induction r with
  | nil => simp [getField_nil]
  | cons a t ih => by_cases h : a.1 = k <;> simp [getField_cons, h, ih]

theorem getField_eq_none (r : Record) (k : String) :
    getField r k = none ↔ k ∉ r.map Prod.fst := by
  induction r with
  | nil => simp [getField_nil]
  | cons a t ih =>
    by_cases h : a.1 = k
    · simp [getField_cons, h]
    · have h2 : ¬ k = a.1 := fun hh => h hh.symm
      rw [getField_cons, if_neg h, ih, List.map_cons, List.mem_cons]
      simp [h2]

theorem getField_map_set (r : Record) (k k' : String) (v : Value) :
    getField (r.map (fun p => if p.1 = k then (k, v) else p)) k'
      = if k' = k then (getField r k).map (fun _ => v) else getField r k' := by
  induction r with
  | nil => simp [getField_nil]
  | cons a t ih =>
    by_cases hak : a.1 = k
    · by_cases hk : k' = k
      · subst hak hk; simp [getField_cons, ih]
      · subst hak
        have hk2 : ¬ a.1 = k' := fun hh => hk hh.symm
        simp [getField_cons, ih, hk, hk2]
    · by_cases hk : k' = k
      · subst hk; simp [getField_cons, hak, ih]
      · by_cases hak' : a.1 = k' <;> simp [getField_cons, hak, hak', hk, ih]

theorem getField_setField (r : Record) (k k' : String) (v : Value) :
    getField (setField r k v) k' = if k' = k then some v else getField r k' := by
  unfold setField
  by_cases hany : (r.any (fun p => p.1 == k)) = true
  · rw [if_pos hany, getField_map_set]
    rcases (any_key_iff r k).mp hany with ⟨w, hw⟩
    by_cases hk : k' = k <;> simp [hk, hw]
  · rw [if_neg hany, getField_append]
    have hnone : getField r k = none := by
      cases hg : getField r k with
      | none => rfl
      | some w => exact absurd ((any_key_iff r k).mpr ⟨w, hg⟩) hany
    by_cases hk : k' = k
    · subst hk; simp [hnone, getField_cons]
    · have hk2 : ¬ k = k' := fun hh => hk hh.symm
      cases hg : getField r k' <;> simp [getField_cons, hg, hk, hk2, getField_nil]

theorem applyData_nil (r : Record) : applyData r [] = r := rfl

theorem applyData_cons (r : Record) (a : String × Value) (t : List (String × Value)) :
    applyData r (a :: t) = applyData (setField r a.1 a.2) t := rfl

theorem getField_applyData_of_not_mem (ds : List (String × Value)) (r : Record)
    (k : String) (h : ∀ q ∈ ds, q.1 ≠ k) :
    getField (applyData r ds) k = getField r k := by
  induction ds generalizing r with
  | nil => rfl
  | cons a t ih =>
    rw [applyData_cons, ih _ (fun q hq => h q (List.mem_cons_of_mem a hq)),
      getField_setField, if_neg]
    exact fun hk => h a (List.mem_cons_self a t) hk.symm

theorem getField_applyData_nodup (ds : List (String × Value)) (r : Record)
    (k : String) (h : (ds.map Prod.fst).Nodup) :
    getField (applyData r ds) k =
      match getField ds k with
      | some v => some v
      | none => getField r k := by
  induction ds generalizing r with
  | nil => simp [applyData_nil, getField_nil]
  | cons a t ih =>
    rw [List.map_cons, List.nodup_cons] at h
    have hmem : a.1 ∉ t.map Prod.fst := h.1
    have hnodup : (t.map Prod.fst).Nodup := h.2
    rw [applyData_cons, ih _ hnodup]
    by_cases hk : a.1 = k
    · subst hk
      have ht : getField t a.1 = none := (getField_eq_none t a.1).mpr hmem
      simp [getField_cons, ht, getField_setField]
    · have : ¬ (k = a.1) := fun hh => hk hh.symm
      cases hg : getField t k <;> simp [getField_cons, hk, hg, getField_setField, this]

theorem keys_setField (r : Record) (k : String) (v : Value)
    (h : k ∈ r.map Prod.fst) :
    (setField r k v).map Prod.fst = r.map Prod.fst := by
  unfold setField
  have hany : (r.any fun p => p.1 == k) = true := by
    rcases List.mem_map.mp h with ⟨p, hp, hpk⟩
    exact List.any_eq_true.mpr ⟨p, hp, by simp [hpk]⟩
  rw [if_pos hany, List.map_map]
  apply List.map_congr_left
  intro p _
  by_cases hpk : p.1 = k <;> simp [hpk]

theorem keys_applyData (ds : List (String × Value)) (r : Record)
    (h : ∀ q ∈ ds, q.1 ∈ r.map Prod.fst) :
    (applyData r ds).map Prod.fst = r.map Prod.fst := by
  induction ds generalizing r with
  | nil => rfl
  | cons a t ih =>
    have hk : (setField r a.1 a.2).map Prod.fst = r.map Prod.fst :=
      keys_setField r a.1 a.2 (h a (List.mem_cons_self a t))
    rw [applyData_cons, ih _ (fun q hq => by
      rw [hk]; exact h q (List.mem_cons_of_mem a hq)), hk]

theorem find?_map_pres (l : List Record) (f : Record → Record) (p : Record → Bool)
    (h : ∀ x, p (f x) = p x) : (l.map f).find? p = (l.find? p).map f := by
  induction l with
  | nil => rfl
  | cons a t ih =>
    by_cases ha : p a = true
    · rw [List.map_cons, List.find?_cons_of_pos _ ((h a).trans ha),
        List.find?_cons_of_pos _ ha, Option.map_some']
    · rw [List.map_cons, List.find?_cons_of_neg _ (by simp [h a, ha]),
        List.find?_cons_of_neg _ ha, ih]

theorem replacement_cons (a : String × Value) (t : Record) (ds : List (String × Value)) :
    replacement (a :: t) ds = (a.1, updValue ds a.1) :: replacement t ds := rfl

theorem getField_replacement (rec : Record) (ds : List (String × Value)) (k : String) :
    getField (replacement rec ds) k = (getField rec k).map (fun _ => updValue ds k) := by
  induction rec with
  | nil => rfl
  | cons a t ih =>
    rw [replacement_cons, getField_cons, getField_cons]
    by_cases h : a.1 = k
    · subst h; simp
    · simp [h, ih]

theorem keys_replacement (rec : Record) (ds : List (String × Value)) :
    (replacement rec ds).map Prod.fst = rec.map Prod.fst := by
  simp [replacement, List.map_map]

theorem selectFields_none (i : String) (r : Record) : selectFields i none r = r := rfl

theorem mapRecords_selectFields_none (i : String) (x : Res) :
    Res.mapRecords (selectFields i none) x = x := by
  cases x with
  | one r => rfl
  | many rs =>
    show Res.many (rs.map (selectFields i none)) = Res.many rs
    rw [List.map_congr_left (fun r _ => selectFields_none i r)]
    simp

theorem stripId_not_id (idField : String) (ds : List (String × Value)) :
    ∀ q ∈ stripId idField ds, q.1 ≠ idField := by
  intro q hq
  have := List.of_mem_filter hq
  simpa using this

theorem getFieldV_stripId_update (idf : String) (d : List (String × Value))
    (r : Record) (w : Where) :
    getFieldV (if matchWhere r w then applyData r (stripId idf d) else r) idf
      = getFieldV r idf := by
  by_cases h : matchWhere r w
  · simp only [h, if_true, getFieldV]
    rw [getField_applyData_of_not_mem _ _ _ (stripId_not_id idf d)]
  · simp [h]

/-! ### State-shape lemmas: read operations never change the table -/

theorem _find_db (pag : Pagination) (p : Params) (st : St) :
    ((Service._find pag p st).1).db = st.db := rfl

theorem _find_calls (pag : Pagination) (p : Params) (st : St) :
    ((Service._find pag p st).1).calls = st.calls ++ [Call.findAndCount] := rfl

theorem _get_db (s : Opts) (i : Value) (p : Params) (st : St) :
    ((Service._get s i p st).1).db = st.db := rfl

theorem _getOrFind_db (s : Opts) (oid : Option Value) (p : Params) (st : St) :
    ((Service._getOrFind s oid p st).1).db = st.db := by
  cases oid <;> rfl

/-! ### Claim theorems -/

/-- C3: `update` with an array payload fails with the invalid-operation
error of the taxonomy, and the state comes back untouched — same records
and same engine-call trace, so no storage-engine call was issued and no
record modified. -/
theorem update_array_payload_rejected (s : Opts) (i : Value)
    (rows : List (List (String × Value))) (p : Params) (st : St) :
    Service.update s i (UpdateData.arr rows) p st
      = (st, Except.error Err.invalidOperation) := rfl

/-- C7: constructing with no options, or with options lacking the Model
handle, fails with the configuration error; with both provided,
construction succeeds, defaulting the identifier field to `"id"` when
none is given and keeping a given one. -/
theorem construct_validates_options (m : Unit) (oid : Option String)
    (pag : Option Pagination) (name : String) :
    Service.construct none = Except.error Err.configuration
  ∧ Service.construct (some { Model := none, id := oid, paginate := pag })
      = Except.error Err.configuration
  ∧ Service.construct (some { Model := some m, id := none, paginate := pag })
      = Except.ok { id := "id", paginate := pag.getD {} }
  ∧ Service.construct (some { Model := some m, id := some name, paginate := pag })
      = Except.ok { id := name, paginate := pag.getD {} } :=
  ⟨rfl, rfl, rfl, rfl⟩

/-- C8: every patch call — single or bulk, whatever the payload — leaves
the identifier field of every stored record unchanged, because the
identifier is stripped from the payload before the engine update. -/
theorem patch_preserves_identifier_fields (s : Opts) (oid : Option Value)
    (data : List (String × Value)) (p : Params) (st : St) :
    ((Service.patch s oid data p st).1).db.map (fun r => getFieldV r s.id)
      = st.db.map (fun r => getFieldV r s.id) := by
  cases oid with
  | none =>
    simp only [Service.patch, _getOrFind_db, Model.update, _find_db, List.map_map]
    exact List.map_congr_left
      (fun r _ => getFieldV_stripId_update s.id data r (buildWhere s none p.query))
  | some i =>
    simp only [Service.patch, _getOrFind_db, Model.update, List.map_map]
    exact List.map_congr_left
      (fun r _ => getFieldV_stripId_update s.id data r (buildWhere s (some i) p.query))

theorem projAttrs_none (r : Record) : projAttrs none r = r := rfl

theorem map_projAttrs_none (l : List Record) : l.map (projAttrs none) = l := by
  rw [List.map_congr_left (fun r _ => projAttrs_none r)]
  simp

/-- C6: `find` returns a page exactly when the effective pagination (the
per-call override when supplied, otherwise the construction-time one) has
a default page size: with a default `d` the page carries the full match
count as `total` and the matches clamped to `d` (capped by `max`) as
`data`; without a default, the bare match list comes back instead of a
page. -/
theorem find_page_iff_default (s : Opts) (p : Params) (st : St)
    (hl : p.query.limit = none) (hs : p.query.skip = none)
    (hsel : p.query.sel = none) :
    (∀ d, (p.paginate.getD s.paginate).default = some d →
      (Service.find s p st).2 = FindResult.page
        { total := (st.db.filter (fun r => matchWhere r p.query.preds)).length,
          limit := some (match (p.paginate.getD s.paginate).max with
                         | none => d
                         | some m => min d m),
          skip := 0,
          data := (st.db.filter (fun r => matchWhere r p.query.preds)).take
                    (match (p.paginate.getD s.paginate).max with
                     | none => d
                     | some m => min d m) })
  ∧ ((p.paginate.getD s.paginate).default = none →
      (Service.find s p st).2
        = FindResult.records (st.db.filter (fun r => matchWhere r p.query.preds))) := by
  constructor
  · intro d hd
    cases hmax : (p.paginate.getD s.paginate).max <;>
      simp [Service.find, Service._find, Model.findAndCount, parseFilters, getWhere,
        takeOpt, hl, hs, hsel, hd, hmax, map_projAttrs_none]
  · intro hd
    simp [Service.find, Service._find, Model.findAndCount, parseFilters, getWhere,
      takeOpt, hl, hs, hsel, hd, map_projAttrs_none]

/-- Witness for C6: with pagination `{default := 10, max := 50}` and two
stored records, `find` returns a page with `total = 2`, `limit = 10`;
overriding `paginate` per call with no default returns the bare list. -/
theorem find_page_iff_default_witness :
    (Service.find { id := "id", paginate := { default := some 10, max := some 50 } }
        {} { db := [[("id", Value.vint 1)], [("id", Value.vint 2)]], calls := [] }).2
      = FindResult.page
          { total := 2, limit := some 10, skip := 0,
            data := [[("id", Value.vint 1)], [("id", Value.vint 2)]] }
  ∧ (Service.find { id := "id", paginate := { default := some 10, max := some 50 } }
        { query := {}, paginate := some {} }
        { db := [[("id", Value.vint 1)], [("id", Value.vint 2)]], calls := [] }).2
      = FindResult.records [[("id", Value.vint 1)], [("id", Value.vint 2)]] := by
  constructor
  · exact ((find_page_iff_default
      { id := "id", paginate := { default := some 10, max := some 50 } } {}
      { db := [[("id", Value.vint 1)], [("id", Value.vint 2)]], calls := [] }
      rfl rfl rfl).1 10 rfl).trans (by decide)
  · exact ((find_page_iff_default
      { id := "id", paginate := { default := some 10, max := some 50 } }
      { query := {}, paginate := some {} }
      { db := [[("id", Value.vint 1)], [("id", Value.vint 2)]], calls := [] }
      rfl rfl rfl).2 rfl).trans (by decide)

/-- C1: a bulk patch (`null` id) first snapshots the identifiers of the
records currently matching the caller's filter, then issues the engine
update, and finally re-fetches by membership of the identifier in that
snapshot (not by the original filter): the returned records are exactly
the post-update records whose id is in the snapshot, and the engine
trace is snapshot-find, update, re-fetch in that order. -/
theorem patch_bulk_refetch_by_snapshot (s : Opts) (data : List (String × Value))
    (p : Params) (st : St)
    (hl : p.query.limit = none) (hs : p.query.skip = none)
    (hsel : p.query.sel = none) :
    Service.patch s none data p st
      = ({ db := st.db.map (fun r =>
              if matchWhere r p.query.preds then applyData r (stripId s.id data) else r),
           calls := st.calls ++ [Call.findAndCount, Call.updateMany, Call.findAndCount] },
         Except.ok (Res.many
           ((st.db.map (fun r =>
               if matchWhere r p.query.preds then applyData r (stripId s.id data) else r)).filter
             (fun r =>
               ((st.db.filter (fun r => matchWhere r p.query.preds)).map
                 (fun r => getFieldV r s.id)).contains (getFieldV r s.id))))) := by
  simp [Service.patch, Service._getOrFind, Service._find, Model.findAndCount,
    Model.update, parseFilters, getWhere, buildWhere, takeOpt, hl, hs, hsel,
    map_projAttrs_none, mapRecords_selectFields_none, matchWhere, matchCond,
    Except.map]

/-- Witness for C1: the spec's example — `patch(null, {status:"x"},
{query:{status:"y"}})` snapshots the id of the one record with
`status = "y"`, and after the update returns that record with
`status = "x"` even though it no longer matches the original filter. -/
theorem patch_bulk_refetch_by_snapshot_witness :
    Service.patch { id := "id", paginate := {} } none [("status", Value.vstr "x")]
        { query := { preds := [("status", Cond.eq (Value.vstr "y"))] } }
        { db := [[("id", Value.vint 1), ("status", Value.vstr "y")],
                 [("id", Value.vint 2), ("status", Value.vstr "n")]], calls := [] }
      = ({ db := [[("id", Value.vint 1), ("status", Value.vstr "x")],
                  [("id", Value.vint 2), ("status", Value.vstr "n")]],
           calls := [Call.findAndCount, Call.updateMany, Call.findAndCount] },
         Except.ok (Res.many [[("id", Value.vint 1), ("status", Value.vstr "x")]]))
  ∧ matchWhere [("id", Value.vint 1), ("status", Value.vstr "x")]
      [("status", Cond.eq (Value.vstr "y"))] = false := by
  refine ⟨?_, by decide⟩
  exact (patch_bulk_refetch_by_snapshot { id := "id", paginate := {} }
    [("status", Value.vstr "x")]
    { query := { preds := [("status", Cond.eq (Value.vstr "y"))] } }
    { db := [[("id", Value.vint 1), ("status", Value.vstr "y")],
             [("id", Value.vint 2), ("status", Value.vstr "n")]], calls := [] }
    rfl rfl rfl).trans (by rfl)

/-- C4: `remove` resolves the target record (by id) or the record list
(by filter) before the delete, issues the delete last, and returns
exactly the pre-deletion snapshot: the records handed back are the
matching records of the original table even though the final table no
longer contains them, and the trace shows the resolve call followed by
`destroy` with nothing re-fetched after it. -/
theorem remove_returns_pre_deletion_snapshot (s : Opts) (p : Params) (st : St)
    (i : Value) (rec : Record)
    (hl : p.query.limit = none) (hs : p.query.skip = none)
    (hsel : p.query.sel = none)
    (hfind : (Model.findById st s.id i).2 = some rec) :
    (Service.remove s none p st
      = ({ db := st.db.filter (fun r => !matchWhere r p.query.preds),
           calls := st.calls ++ [Call.findAndCount, Call.destroy] },
         Except.ok (Res.many (st.db.filter (fun r => matchWhere r p.query.preds)))))
  ∧ (Service.remove s (some i) p st
      = ({ db := st.db.filter
              (fun r => !matchWhere r (assocSet p.query.preds s.id (Cond.eq i))),
           calls := st.calls ++ [Call.findById, Call.destroy] },
         Except.ok (Res.one rec))) := by
  simp only [Model.findById] at hfind
  constructor
  · simp [Service.remove, Service._getOrFind, Service._find, Model.findAndCount,
      Model.destroy, parseFilters, getWhere, buildWhere, takeOpt, hl, hs, hsel,
      map_projAttrs_none, mapRecords_selectFields_none, Except.map]
  · simp [Service.remove, Service._getOrFind, Service._get, Model.findById,
      Model.destroy, getWhere, buildWhere, hfind, hsel, selectFields_none,
      Res.mapRecords, Except.map]

/-- Witness for C4: removing by filter returns the deleted record while
the table keeps only the other one; removing id 1 returns the record
that was deleted. -/
theorem remove_returns_pre_deletion_snapshot_witness :
    Service.remove { id := "id", paginate := {} } none
        { query := { preds := [("status", Cond.eq (Value.vstr "y"))] } }
        { db := [[("id", Value.vint 1), ("status", Value.vstr "y")],
                 [("id", Value.vint 2), ("status", Value.vstr "n")]], calls := [] }
      = ({ db := [[("id", Value.vint 2), ("status", Value.vstr "n")]],
           calls := [Call.findAndCount, Call.destroy] },
         Except.ok (Res.many [[("id", Value.vint 1), ("status", Value.vstr "y")]]))
  ∧ Service.remove { id := "id", paginate := {} } (some (Value.vint 1))
        { query := { preds := [("status", Cond.eq (Value.vstr "y"))] } }
        { db := [[("id", Value.vint 1), ("status", Value.vstr "y")],
                 [("id", Value.vint 2), ("status", Value.vstr "n")]], calls := [] }
      = ({ db := [[("id", Value.vint 2), ("status", Value.vstr "n")]],
           calls := [Call.findById, Call.destroy] },
         Except.ok (Res.one [("id", Value.vint 1), ("status", Value.vstr "y")])) := by
  have h := remove_returns_pre_deletion_snapshot { id := "id", paginate := {} }
    { query := { preds := [("status", Cond.eq (Value.vstr "y"))] } }
    { db := [[("id", Value.vint 1), ("status", Value.vstr "y")],
             [("id", Value.vint 2), ("status", Value.vstr "n")]], calls := [] }
    (Value.vint 1) [("id", Value.vint 1), ("status", Value.vstr "y")]
    rfl rfl rfl (by rfl)
  exact ⟨h.1.trans (by rfl), h.2.trans (by rfl)⟩

theorem matchWhere_single_eq (r : Record) (k : String) (v : Value) :
    matchWhere r [(k, Cond.eq v)] = (getFieldV r k == v) := by
  simp [matchWhere, matchCond]

/-- C5: removing a non-null id with no matching record fails with
not-found and leaves the records untouched; and a second `remove` of the
same id right after a successful one fails with not-found (the record is
gone), so removal is not a silent no-op. -/
theorem remove_missing_id_notFound (s : Opts) (p : Params) (st : St) (i : Value)
    (hq : p.query.preds = []) (hsel : p.query.sel = none) :
    ((Model.findById st s.id i).2 = none →
      Service.remove s (some i) p st
        = ({ db := st.db, calls := st.calls ++ [Call.findById] },
           Except.error Err.notFound))
  ∧ (∀ st1 r, Service.remove s (some i) p st = (st1, Except.ok r) →
      (Service.remove s (some i) p st1).2 = Except.error Err.notFound) := by
  constructor
  · intro h
    simp only [Model.findById] at h
    simp [Service.remove, Service._getOrFind, Service._get, Model.findById, h,
      Except.map]
  · intro st1 r hrem
    cases hf : st.db.find? (fun rr => getFieldV rr s.id == i) with
    | none =>
      have hcomp : Service.remove s (some i) p st
          = ({ db := st.db, calls := st.calls ++ [Call.findById] },
             Except.error Err.notFound) := by
        simp [Service.remove, Service._getOrFind, Service._get, Model.findById, hf,
          Except.map]
      rw [hcomp] at hrem
      exact absurd (congrArg Prod.snd hrem) (by simp)
    | some rec =>
      have hcomp : Service.remove s (some i) p st
          = ({ db := st.db.filter (fun rr => !matchWhere rr [(s.id, Cond.eq i)]),
               calls := st.calls ++ [Call.findById, Call.destroy] },
             Except.ok (Res.one rec)) := by
        simp [Service.remove, Service._getOrFind, Service._get, Model.findById,
          Model.destroy, getWhere, buildWhere, hf, hq, hsel, selectFields_none,
          Res.mapRecords, Except.map, assocSet]
      rw [hcomp] at hrem
      injection hrem with h1 h2
      subst h1
      have hnone : (st.db.filter (fun rr => !matchWhere rr [(s.id, Cond.eq i)])).find?
          (fun rr => getFieldV rr s.id == i) = none := by
        apply List.find?_eq_none.mpr
        intro x hx
        have hmem := (List.mem_filter.mp hx).2
        rw [matchWhere_single_eq] at hmem
        simp at hmem
        simp [hmem]
      simp [Service.remove, Service._getOrFind, Service._get, Model.findById, hnone,
        Except.map]

/-- Witness for C5: removing id 9 from a table holding only id 1 fails
with not-found; removing id 1 twice in a row fails with not-found the
second time. -/
theorem remove_missing_id_notFound_witness :
    (Service.remove { id := "id", paginate := {} } (some (Value.vint 9)) {}
        { db := [[("id", Value.vint 1)]], calls := [] }).2 = Except.error Err.notFound
  ∧ (Service.remove { id := "id", paginate := {} } (some (Value.vint 1)) {}
        { db := [], calls := [Call.findById, Call.destroy] }).2
      = Except.error Err.notFound := by
  constructor
  · exact congrArg Prod.snd
      ((remove_missing_id_notFound { id := "id", paginate := {} } {}
        { db := [[("id", Value.vint 1)]], calls := [] } (Value.vint 9)
        rfl rfl).1 (by rfl))
  · exact (remove_missing_id_notFound { id := "id", paginate := {} } {}
      { db := [[("id", Value.vint 1)]], calls := [] } (Value.vint 1)
      rfl rfl).2 { db := [], calls := [Call.findById, Call.destroy] }
      (Res.one [("id", Value.vint 1)]) (by rfl)

theorem matchWhere_append (r : Record) (w1 w2 : Where) :
    matchWhere r (w1 ++ w2) = (matchWhere r w1 && matchWhere r w2) := by
  simp [matchWhere, List.all_append]

theorem assocSet_not_mem (w : Where) (k : String) (c : Cond)
    (h : ∀ q ∈ w, q.1 ≠ k) : assocSet w k c = w ++ [(k, c)] := by
  have hc : ¬ (w.any (fun p => p.1 == k) = true) := by
    intro hc
    rcases List.any_eq_true.mp hc with ⟨q, hq, hqk⟩
    exact h q hq (by simpa using hqk)
  unfold assocSet
  rw [if_neg hc]

/-- C2: `update` on an existing record replaces the whole record: every
field currently on the record gets the caller's value when the payload
defines one and explicit null otherwise — in contrast with `patch` of the
same payload, which leaves the fields the payload does not mention
unchanged. -/
theorem update_full_replacement (s : Opts) (i : Value) (d : List (String × Value))
    (p : Params) (st : St) (rec : Record)
    (hfind : (Model.findById st s.id i).2 = some rec)
    (hsel : p.query.sel = none)
    (hnodup : (rec.map Prod.fst).Nodup)
    (hq : p.query.preds = []) :
    ((Service.update s i (UpdateData.obj d) p st).2
        = Except.ok (applyData rec (replacement rec d)))
  ∧ (∀ k v, getField rec k ≠ none → getField d k = some v → v ≠ Value.vundef →
      getField (applyData rec (replacement rec d)) k = some v)
  ∧ (∀ k, getField rec k ≠ none → getField d k = none →
      getField (applyData rec (replacement rec d)) k = some Value.vnull)
  ∧ ((Service.patch s (some i) d p st).2
        = Except.ok (Res.one (applyData rec (stripId s.id d))))
  ∧ (∀ k, getField d k = none →
      getField (applyData rec (stripId s.id d)) k = getField rec k) := by
  have hfind' : st.db.find? (fun rr => getFieldV rr s.id == i) = some rec := by
    simpa [Model.findById] using hfind
  have hrepl : ∀ k, getField (applyData rec (replacement rec d)) k
      = (getField rec k).map (fun _ => updValue d k) := by
    intro k
    rw [getField_applyData_nodup _ _ _ (by rw [keys_replacement]; exact hnodup),
      getField_replacement]
    cases getField rec k <;> simp
  refine ⟨?_, ?_, ?_, ?_, ?_⟩
  · simp [Service.update, Model.findById, hfind', Model.instanceUpdate, hsel,
      selectFields_none]
  · intro k v hk hd hv
    rw [hrepl k]
    cases hg : getField rec k with
    | none => exact absurd hg hk
    | some w =>
      have : updValue d k = v := by
        cases v with
        | vundef => exact absurd rfl hv
        | vnull => simp [updValue, hd]
        | vint n => simp [updValue, hd]
        | vstr t => simp [updValue, hd]
        | vbool b => simp [updValue, hd]
      simp [this]
  · intro k hk hd
    rw [hrepl k]
    cases hg : getField rec k with
    | none => exact absurd hg hk
    | some w => simp [updValue, hd]
  · have hmatch : matchWhere rec [(s.id, Cond.eq i)] = true := by
      rw [matchWhere_single_eq]
      have h2 := List.find?_some hfind'
      exact h2
    have hfmap : (st.db.map (fun r => if matchWhere r [(s.id, Cond.eq i)]
          then applyData r (stripId s.id d) else r)).find?
          (fun rr => getFieldV rr s.id == i)
        = some (applyData rec (stripId s.id d)) := by
      rw [find?_map_pres _ _ _ (fun x => by simp [getFieldV_stripId_update]), hfind']
      simp [hmatch]
    simp [Service.patch, Service._getOrFind, Service._get, Model.findById,
      Model.update, buildWhere, getWhere, hq, assocSet, hfmap, hsel,
      selectFields_none, Res.mapRecords, Except.map]
  · intro k hk
    apply getField_applyData_of_not_mem
    intro q hq2 hqk
    exact (getField_eq_none d k).mp hk
      (List.mem_map.mpr ⟨q, List.mem_of_mem_filter hq2, hqk⟩)

/-- Witness for C2: `update(7, {a:1})` on the record
`{id:7, a:0, b:2, c:3}` yields `a=1` and nulls for every other field,
while `patch(7, {a:1})` on the same table leaves `b` and `c` unchanged. -/
theorem update_full_replacement_witness :
    (Service.update { id := "id", paginate := {} } (Value.vint 7)
        (UpdateData.obj [("a", Value.vint 1)]) {}
        { db := [[("id", Value.vint 7), ("a", Value.vint 0),
                  ("b", Value.vint 2), ("c", Value.vint 3)]], calls := [] }).2
      = Except.ok [("id", Value.vnull), ("a", Value.vint 1),
                   ("b", Value.vnull), ("c", Value.vnull)]
  ∧ (Service.patch { id := "id", paginate := {} } (some (Value.vint 7))
        [("a", Value.vint 1)] {}
        { db := [[("id", Value.vint 7), ("a", Value.vint 0),
                  ("b", Value.vint 2), ("c", Value.vint 3)]], calls := [] }).2
      = Except.ok (Res.one [("id", Value.vint 7), ("a", Value.vint 1),
                            ("b", Value.vint 2), ("c", Value.vint 3)]) := by
  have h := update_full_replacement { id := "id", paginate := {} } (Value.vint 7)
    [("a", Value.vint 1)] {}
    { db := [[("id", Value.vint 7), ("a", Value.vint 0),
              ("b", Value.vint 2), ("c", Value.vint 3)]], calls := [] }
    [("id", Value.vint 7), ("a", Value.vint 0), ("b", Value.vint 2),
     ("c", Value.vint 3)]
    (by rfl) rfl (by decide) rfl
  exact ⟨h.1.trans (by rfl), h.2.2.2.1.trans (by rfl)⟩

/-- C10: the replacement payload `update` writes carries exactly the key
set of the existing record — a field present in the payload but not on
the record is silently dropped, and the updated record never gains a new
key. -/
theorem update_never_adds_fields (s : Opts) (i : Value) (d : List (String × Value))
    (p : Params) (st : St) (rec : Record)
    (hfind : (Model.findById st s.id i).2 = some rec)
    (hsel : p.query.sel = none) :
    ((Service.update s i (UpdateData.obj d) p st).2
        = Except.ok (applyData rec (replacement rec d)))
  ∧ (replacement rec d).map Prod.fst = rec.map Prod.fst
  ∧ (applyData rec (replacement rec d)).map Prod.fst = rec.map Prod.fst
  ∧ (∀ k, getField rec k = none → getField (applyData rec (replacement rec d)) k = none) := by
  have hfind' : st.db.find? (fun rr => getFieldV rr s.id == i) = some rec := by
    simpa [Model.findById] using hfind
  have hkeys : (applyData rec (replacement rec d)).map Prod.fst = rec.map Prod.fst :=
    keys_applyData _ _ (fun q hq => by
      rw [← keys_replacement rec d]
      exact List.mem_map.mpr ⟨q, hq, rfl⟩)
  refine ⟨?_, keys_replacement rec d, hkeys, ?_⟩
  · simp [Service.update, Model.findById, hfind', Model.instanceUpdate, hsel,
      selectFields_none]
  · intro k hk
    rw [getField_eq_none, hkeys]
    exact (getField_eq_none rec k).mp hk

/-- Witness for C10: `update(7, {a:1, zzz:9})` on the record
`{id:7, a:0}` keeps exactly the keys `id` and `a`; the payload's new
field `zzz` does not appear on the result. -/
theorem update_never_adds_fields_witness :
    (Service.update { id := "id", paginate := {} } (Value.vint 7)
        (UpdateData.obj [("a", Value.vint 1), ("zzz", Value.vint 9)]) {}
        { db := [[("id", Value.vint 7), ("a", Value.vint 0)]], calls := [] }).2
      = Except.ok [("id", Value.vnull), ("a", Value.vint 1)]
  ∧ getField (applyData [("id", Value.vint 7), ("a", Value.vint 0)]
      (replacement [("id", Value.vint 7), ("a", Value.vint 0)]
        [("a", Value.vint 1), ("zzz", Value.vint 9)])) "zzz" = none := by
  have h := update_never_adds_fields { id := "id", paginate := {} } (Value.vint 7)
    [("a", Value.vint 1), ("zzz", Value.vint 9)] {}
    { db := [[("id", Value.vint 7), ("a", Value.vint 0)]], calls := [] }
    [("id", Value.vint 7), ("a", Value.vint 0)] (by rfl) rfl
  exact ⟨h.1.trans (by rfl), h.2.2.2 "zzz" (by rfl)⟩

/-- C9 is refuted by a caller filter on the identifier field itself: the
record with id 1 exists and does not satisfy the filter `{id: 2}`, yet
`patch(1, {status:"b"})` overwrites the filter's id predicate with
`id == 1` when building the where clause, so the record is updated and
returned modified — not returned unmodified as the claim states. -/
theorem patch_single_nonmatching_ctrex :
    (Model.findById
        { db := [[("id", Value.vint 1), ("status", Value.vstr "a")]], calls := [] }
        "id" (Value.vint 1)).2
      = some [("id", Value.vint 1), ("status", Value.vstr "a")]
  ∧ matchWhere [("id", Value.vint 1), ("status", Value.vstr "a")]
      [("id", Cond.eq (Value.vint 2))] = false
  ∧ (Service.patch { id := "id", paginate := {} } (some (Value.vint 1))
        [("status", Value.vstr "b")]
        { query := { preds := [("id", Cond.eq (Value.vint 2))] } }
        { db := [[("id", Value.vint 1), ("status", Value.vstr "a")]], calls := [] }).2
      = Except.ok (Res.one [("id", Value.vint 1), ("status", Value.vstr "b")])
  ∧ (Service.patch { id := "id", paginate := {} } (some (Value.vint 1))
        [("status", Value.vstr "b")]
        { query := { preds := [("id", Cond.eq (Value.vint 2))] } }
        { db := [[("id", Value.vint 1), ("status", Value.vstr "a")]], calls := [] }).2
      ≠ Except.ok (Res.one [("id", Value.vint 1), ("status", Value.vstr "a")]) := by
  have h3 : (Service.patch { id := "id", paginate := {} } (some (Value.vint 1))
        [("status", Value.vstr "b")]
        { query := { preds := [("id", Cond.eq (Value.vint 2))] } }
        { db := [[("id", Value.vint 1), ("status", Value.vstr "a")]], calls := [] }).2
      = Except.ok (Res.one [("id", Value.vint 1), ("status", Value.vstr "b")]) := by rfl
  refine ⟨rfl, rfl, h3, fun h => ?_⟩
  rw [h3] at h
  simp at h

/-- C9 (amended): for `patch(id, data)` with a non-null id, if a record
with that id exists, the caller's filter predicates do not constrain the
identifier field (which the where-clause construction would overwrite
with `id == given id`), and the record does not satisfy those
predicates, the call succeeds and returns that record unmodified via the
id-only re-fetch — rather than failing with not-found or returning an
empty result. -/
theorem patch_single_nonmatching_unmodified (s : Opts) (i : Value)
    (d : List (String × Value)) (p : Params) (st : St) (rec : Record)
    (hfind : (Model.findById st s.id i).2 = some rec)
    (hnoid : ∀ q ∈ p.query.preds, q.1 ≠ s.id)
    (hmatch : matchWhere rec p.query.preds = false)
    (hsel : p.query.sel = none) :
    (Service.patch s (some i) d p st).2 = Except.ok (Res.one rec) := by
  have hfind' : st.db.find? (fun rr => getFieldV rr s.id == i) = some rec := by
    simpa [Model.findById] using hfind
  have hw : buildWhere s (some i) p.query = p.query.preds ++ [(s.id, Cond.eq i)] := by
    unfold buildWhere getWhere
    exact assocSet_not_mem _ _ _ hnoid
  have hmatchw : matchWhere rec (p.query.preds ++ [(s.id, Cond.eq i)]) = false := by
    rw [matchWhere_append, hmatch, Bool.false_and]
  have hfmap : (st.db.map (fun r =>
        if matchWhere r (p.query.preds ++ [(s.id, Cond.eq i)])
        then applyData r (stripId s.id d) else r)).find?
        (fun rr => getFieldV rr s.id == i)
      = some rec := by
    rw [find?_map_pres _ _ _ (fun x => by simp [getFieldV_stripId_update]), hfind']
    simp [hmatchw]
  simp [Service.patch, Service._getOrFind, Service._get, Model.findById,
    Model.update, hw, hfmap, hsel, selectFields_none, Res.mapRecords, Except.map]

/-- Witness for the amended C9: with filter `{status:"z"}` (not touching
the id field) and a stored record `{id:1, status:"a"}` that fails the
filter, `patch(1, {status:"b"})` returns the record unmodified. -/
theorem patch_single_nonmatching_unmodified_witness :
    (Service.patch { id := "id", paginate := {} } (some (Value.vint 1))
        [("status", Value.vstr "b")]
        { query := { preds := [("status", Cond.eq (Value.vstr "z"))] } }
        { db := [[("id", Value.vint 1), ("status", Value.vstr "a")]], calls := [] }).2
      = Except.ok (Res.one [("id", Value.vint 1), ("status", Value.vstr "a")]) :=
  patch_single_nonmatching_unmodified { id := "id", paginate := {} } (Value.vint 1)
    [("status", Value.vstr "b")]
    { query := { preds := [("status", Cond.eq (Value.vstr "z"))] } }
    { db := [[("id", Value.vint 1), ("status", Value.vstr "a")]], calls := [] }
    [("id", Value.vint 1), ("status", Value.vstr "a")]
    (by rfl) (by decide) (by rfl) rfl

end FeathersSequelize
